import Mathlib

/-!
Verification of the Mira reconnaissance tool's concurrent discovery engine
(`src/mira/_mira_.py`): target normalization, the CLI mode dispatcher, the
directory link extractor, and the subdomain probe worker loop, embedded
shallowly as executable Lean definitions.
-/

namespace Mira

/-! ## String helpers from the source -/

/-- Models Python `str.startswith`: the argument is a prefix of the
string. -/
def pyStartsWith (s p : String) : Bool :=
  p.data.isPrefixOf s.data

/-- Models Python `str.endswith`: the argument is a suffix of the
string. -/
def pyEndsWith (s p : String) : Bool :=
  p.data.isSuffixOf s.data

/-- The whitespace characters Python `str.strip()` removes. -/
def isPySpace (c : Char) : Bool :=
  c = ' ' || c = '\t' || c = '\n' || c = '\r' || c = '\x0b' || c = '\x0c'

/-- Models Python `str.strip()`: drops whitespace from both ends. -/
def pyStrip (s : String) : String :=
  ⟨((s.data.dropWhile isPySpace).reverse.dropWhile isPySpace).reverse⟩

/-- Embeds `strip_protocol` (line 17): removes every occurrence of
`http://` and then of `https://` from the url (Python `str.replace`
with an empty replacement). -/
def strip_protocol (url : String) : String :=
  (url.replace "http://" "").replace "https://" ""

/-! ## Target normalizer (`main`, lines 254-264)

The source validates `args.target` against the anchored regex
`^(https?://)?(www\.)?([a-zA-Z0-9-]+(\.[a-zA-Z]{2,})+)$`, takes
`match.group(0)` (the whole input, except that `$` also matches just
before one trailing newline, which `group(0)` then excludes), and
prepends `"http://"` when the matched string does not start with the
literal `"http"`. -/

/-- Character class `[a-zA-Z0-9-]` of the first host label. -/
def isHostChar (c : Char) : Bool :=
  c.isAlpha || c.isDigit || c = '-'

/-- Splits a character list at every `'.'` (each dot separates two
pieces, so consecutive or terminal dots produce empty pieces). -/
def splitDot : List Char → List (List Char)
  | [] => [[]]
  | c :: cs =>
    if c = '.' then [] :: splitDot cs
    else
      match splitDot cs with
      | [] => [[c]]
      | p :: ps => (c :: p) :: ps

/-- Embeds the regex fragment `[a-zA-Z0-9-]+(\.[a-zA-Z]{2,})+`: a
nonempty first label over `[a-zA-Z0-9-]`, then at least one `.label`
where each such label is alphabetic of length ≥ 2.  Since `'.'` is in
neither character class, the backtracking regex match is exactly the
dot-split decomposition. -/
def hostCore (cs : List Char) : Bool :=
  match splitDot cs with
  | [] => false
  | l0 :: rest =>
    !l0.isEmpty && l0.all isHostChar && !rest.isEmpty &&
      rest.all (fun l => decide (2 ≤ l.length) && l.all Char.isAlpha)

/-- The alternatives of the optional scheme group `(https?://)?`. -/
def schemeOpts : List (List Char) :=
  ["https://".data, "http://".data, []]

/-- The alternatives of the optional `(www\.)?` group. -/
def wwwOpts : List (List Char) :=
  ["www.".data, []]

/-- The full-string match of the anchored regex
`^(https?://)?(www\.)?([a-zA-Z0-9-]+(\.[a-zA-Z]{2,})+)$` (the hostname
grammar): the whole input matches iff, for some choice of the two
optional prefix groups, the remainder matches `hostCore`.  Python's `$`
additionally matches just before one trailing newline; `pyMatch` below
adds that case. -/
def matchesTarget (s : String) : Bool :=
  schemeOpts.any fun p1 =>
    wwwOpts.any fun p2 =>
      (p1 ++ p2).isPrefixOf s.data && hostCore (s.data.drop (p1 ++ p2).length)

/-- Models `pattern.match(args.target)` (line 256) and `match.group(0)`
(line 259).  Without `re.MULTILINE`, `$` matches at the end of the
string or just before a newline that ends the string, and `'\n'` is in
none of the pattern's character classes, so the match succeeds iff the
whole string — or, when it ends in a newline, the string without that
final newline — matches the grammar; `group(0)` is the matched text,
which excludes such a trailing newline. -/
def pyMatch (s : String) : Option String :=
  if matchesTarget s then some s
  else
    match s.data.getLast? with
    | some '\n' =>
      if matchesTarget ⟨s.data.dropLast⟩ then some ⟨s.data.dropLast⟩ else none
    | _ => none

/-- Embeds target validation and scheme fixing in `main` (lines 254-264):
on a regex match, `target = match.group(0)`, and `"http://"` is
prepended iff `target.startswith("http")` is false; on a non-match,
`None` (the source prints a diagnostic and returns). -/
def normalize (s : String) : Option String :=
  match pyMatch s with
  | some target => some (if pyStartsWith target "http" then target else "http://" ++ target)
  | none => none

/-- A normalized target carries an explicit scheme when it starts with
`http://` or `https://` (the spec's notion of "always carries an
explicit scheme"). -/
def hasExplicitScheme (t : String) : Bool :=
  "http://".data.isPrefixOf t.data || "https://".data.isPrefixOf t.data

/-! ## CLI mode dispatch (`main`, lines 269-320) -/

/-- The five scan modes of the CLI. -/
inductive Mode where
  | basicInfo
  | portScan
  | dirScan
  | subScan
  | techScan
  deriving DecidableEq, Repr

/-- The boolean mode flags parsed by `argparse`. -/
structure Args where
  basic_info : Bool
  port_scan : Bool
  dir_scan : Bool
  sub_scan : Bool
  tech_scan : Bool
  deriving DecidableEq, Repr

/-- Embeds the `if args.basic_info: ... elif args.port_scan: ... elif
args.tech_scan:` chain of `main` (lines 269-320): the first true flag,
in source order, selects the mode; with no flag set, no mode runs. -/
def selectMode (a : Args) : Option Mode :=
  if a.basic_info then some Mode.basicInfo
  else if a.port_scan then some Mode.portScan
  else if a.dir_scan then some Mode.dirScan
  else if a.sub_scan then some Mode.subScan
  else if a.tech_scan then some Mode.techScan
  else none

/-- The mode flags paired with their modes, in the priority order of the
source's `if`/`elif` chain. -/
def modeFlags (a : Args) : List (Bool × Mode) :=
  [(a.basic_info, Mode.basicInfo), (a.port_scan, Mode.portScan),
   (a.dir_scan, Mode.dirScan), (a.sub_scan, Mode.subScan),
   (a.tech_scan, Mode.techScan)]

/-- Outcome of one `main` invocation, as far as target validation and
mode dispatch go. -/
inductive MainOutcome where
  | noTarget
  | invalidTarget
  | ran (m : Mode) (target : String)
  | noMode (target : String)
  deriving DecidableEq, Repr

/-- Embeds `main` (lines 254-320): the falsy-target check, then regex
validation with the scheme fix, then the mode dispatch chain.  A scan
mode executes only on the `ran` outcome. -/
def mainRun (t : String) (a : Args) : MainOutcome :=
  if t = "" then MainOutcome.noTarget
  else
    match normalize t with
    | none => MainOutcome.invalidTarget
    | some target =>
      match selectMode a with
      | some m => MainOutcome.ran m target
      | none => MainOutcome.noMode target

/-- The diagnostic `main` prints on each validation-failure outcome
(lines 263, 266); `none` when validation succeeded. -/
def mainDiagnostic : MainOutcome → Option String
  | MainOutcome.noTarget => some "Please enter a target URL."
  | MainOutcome.invalidTarget => some "Invalid URL. Please enter a valid URL."
  | MainOutcome.ran _ _ => none
  | MainOutcome.noMode _ => none

/-- The mode a `main` invocation actually executed, if any. -/
def ranMode : MainOutcome → Option Mode
  | MainOutcome.ran m _ => some m
  | _ => none

/-! ## URL resolution (model of `urllib.parse.urljoin` / `urlparse`)

`scan_directories` resolves each `href` with `urljoin(self.target, url)`
and filters on `urlparse(full_url).path.endswith('/')`.  `urllib.parse`
is standard-library code outside this repository; the definitions below
model its documented behaviour for the URL shapes the scanner meets:
absolute references carrying a scheme, network-path (`//…`) references,
path-absolute (`/…`) references, and plain relative references, on base
URLs of the form `scheme://netloc[/path]`. -/

/-- Splits off a URL scheme: for `scheme://rest` (nonempty alphabetic
scheme) returns `(scheme, rest)`. -/
def splitScheme (cs : List Char) : Option (List Char × List Char) :=
  let sch := cs.takeWhile Char.isAlpha
  if !sch.isEmpty && "://".data.isPrefixOf (cs.drop sch.length) then
    some (sch, cs.drop (sch.length + 3))
  else none

/-- Characters that terminate the network-location part of a URL. -/
def endsNetloc (c : Char) : Bool :=
  c = '/' || c = '?' || c = '#'

/-- The path component reported by `urlparse`: for `scheme://netloc…`
everything from the first `/` after the netloc up to a query or
fragment; for a scheme-less reference, the reference itself up to a
query or fragment. -/
def urlparsePath (u : String) : String :=
  match splitScheme u.data with
  | some (_, rest) =>
    ⟨((rest.dropWhile (fun c => !endsNetloc c)).takeWhile (fun c => c ≠ '?' && c ≠ '#'))⟩
  | none => ⟨u.data.takeWhile (fun c => c ≠ '?' && c ≠ '#')⟩

/-- The `scheme://netloc` origin of a URL that carries a scheme (the
base URLs the scanner uses always do); a scheme-less string is returned
unchanged. -/
def urlOrigin (u : String) : String :=
  match splitScheme u.data with
  | some (sch, rest) => ⟨sch ++ "://".data ++ rest.takeWhile (fun c => !endsNetloc c)⟩
  | none => u

/-- The base directory a relative reference is merged onto: the base
path up to and including its last `/`, or `/` when the base path has
none (RFC 3986 merge, empty base path treated as root). -/
def baseDir (p : List Char) : List Char :=
  if p.contains '/' then (p.reverse.dropWhile (fun c => c ≠ '/')).reverse
  else "/".data

/-- Models `urllib.parse.urljoin base url`: a reference with its own
scheme is returned as is; `//…` keeps only the base scheme; `/…` is
resolved against the base origin; an empty reference yields the base;
any other reference is merged onto the base path's directory. -/
def urljoin (base url : String) : String :=
  match splitScheme url.data with
  | some _ => url
  | none =>
    if ("//".data).isPrefixOf url.data then
      match splitScheme base.data with
      | some (sch, _) => ⟨sch ++ ":".data ++ url.data⟩
      | none => url
    else if ("/".data).isPrefixOf url.data then urlOrigin base ++ url
    else if url = "" then base
    else urlOrigin base ++ ⟨baseDir (urlparsePath base).data⟩ ++ url

/-! ## Directory link extractor (`WebScanner.scan_directories`, lines 90-118) -/

/-- Adds an element to Python-set-modelled-as-list: no duplicates, first
insertion order kept. -/
def setAdd (s : List String) (x : String) : List String :=
  if x ∈ s then s else s ++ [x]

/-- One iteration of the link loop of `scan_directories` (lines
104-111): for an anchor's `href` (which `link.get('href')` may report
as `None`), skip falsy values (`if url:` drops both `None` and `""`),
resolve with `urljoin`, and add to the `directories` set iff the parsed
path ends with `/`.  No same-origin condition appears in the source. -/
def dirStep (target : String) (dirs : List String) (h : Option String) : List String :=
  match h with
  | none => dirs
  | some url =>
    if url = "" then dirs
    else
      let full_url := urljoin target url
      if pyEndsWith (urlparsePath full_url) "/" then setAdd dirs full_url
      else dirs

/-- Embeds the whole link loop of `scan_directories` (lines 104-111):
fold `dirStep` over the `href` of every `<a>` tag of the page. -/
def extractDirs (target : String) (hrefs : List (Option String)) : List String :=
  hrefs.foldl (dirStep target) []

/-- Outcome of the single `requests.get(self.target, timeout=5)` fetch:
either a parsed page, reduced to the `href` of each `<a>` tag, or a
`requests.exceptions.RequestException` transport error. -/
inductive FetchOutcome where
  | ok (hrefs : List (Option String))
  | transportError (msg : String)

/-- Embeds `scan_directories` (lines 90-118) on a scanner whose shared
`self.results` currently holds `results`: on a transport error the
`except` clause prints a diagnostic and returns `self.results`
unchanged; otherwise every extracted directory is appended to
`self.results`, which is returned.  The first component is the returned
list (also the new `self.results`), the second the error diagnostics
printed.  Every branch of the source returns normally, so the embedding
is total: no exception reaches the caller. -/
def scan_directories (results : List String) (target : String) (f : FetchOutcome) :
    List String × List String :=
  match f with
  | FetchOutcome.transportError e =>
    (results, ["[!] Error accessing " ++ target ++ ": " ++ e])
  | FetchOutcome.ok hrefs => (results ++ extractDirs target hrefs, [])

/-- `scan_directories` as its caller sees it: `Except.error` would model
an exception escaping to the caller.  The only fallible operations of
the source are the fetch — whose `requests.exceptions.RequestException`
is caught at line 96 — and the link loop, wrapped in the generic
`except` at line 112, so every path returns normally and the embedding
is `Except.ok` on every input. -/
def scan_directoriesE (results : List String) (target : String) (f : FetchOutcome) :
    Except String (List String × List String) :=
  Except.ok (scan_directories results target f)

/-! ## Subdomain probe workers (`WebScanner.scan_subdomains`, lines 120-153)

Each worker runs `scan()` (lines 132-144): `q.get()`, build
`url = f"http://{subdomain}.{self.Target}"`, `requests.get(url)` inside
`try`/`except requests.ConnectionError`/`else`, then `q.task_done()`.
The `requests.get` call is made with NO `timeout` argument. -/

/-- How one `requests.get(url)` probe ends: the call returns a response,
raises `requests.ConnectionError`, or raises some other exception (for
example `requests.exceptions.TooManyRedirects` or
`requests.exceptions.InvalidURL`). -/
inductive ProbeResult where
  | success
  | connectionError
  | otherException
  deriving DecidableEq, Repr

/-- Embeds the f-string `f"http://{subdomain}.{self.Target}"`
(line 135). -/
def buildProbeUrl (subdomain host : String) : String :=
  "http://" ++ subdomain ++ "." ++ host

/-- The state a worker leaves after one iteration of its loop body. -/
structure IterResult where
  results : List String
  taskDoneCalled : Bool
  exceptionEscaped : Bool
  deriving DecidableEq, Repr

/-- Embeds one iteration of `scan()` after `q.get()` (lines 134-144):
on a normal `requests.get` return, the `else` branch appends `url` to
the shared results under the lock and `q.task_done()` runs; on
`requests.ConnectionError` the `except` branch passes and
`q.task_done()` runs; on any other exception nothing catches it, so it
escapes the loop before `q.task_done()` — the item is never marked done
and the worker thread dies. -/
def scanIteration (url : String) (r : ProbeResult) (results : List String) : IterResult :=
  match r with
  | ProbeResult.success => ⟨results ++ [url], true, false⟩
  | ProbeResult.connectionError => ⟨results, true, false⟩
  | ProbeResult.otherException => ⟨results, false, true⟩

/-- A network request as issued by the source: its URL and the timeout
argument passed to `requests.get` (`none` means no `timeout` argument,
i.e. an unbounded wait in `requests`). -/
structure HttpRequest where
  url : String
  timeout : Option Nat
  deriving DecidableEq, Repr

/-- The request of `scan_directories` (line 94):
`requests.get(self.target, timeout=5)`. -/
def dirScanRequest (target : String) : HttpRequest :=
  ⟨target, some 5⟩

/-- The request of a probe worker in `scan_subdomains` (line 137):
`requests.get(url)`, with no `timeout` argument. -/
def subScanRequest (url : String) : HttpRequest :=
  ⟨url, none⟩

/-- A request has a bounded timeout iff a `timeout` argument is
passed. -/
def boundedTimeout (r : HttpRequest) : Bool :=
  r.timeout.isSome

/-- The cumulative effect of processing candidate `s` when the probe
either succeeds or fails with a connection error, as the resolution
predicate `resolves` dictates: the worker appends `buildProbeUrl s host`
on success and nothing on connection failure. -/
def probeStep (host : String) (resolves : String → Bool) (results : List String)
    (s : String) : List String :=
  (scanIteration (buildProbeUrl s host)
    (if resolves s then ProbeResult.success else ProbeResult.connectionError)
    results).results

/-- Embeds `scan_subdomains` (lines 120-153) under the assumption that
every probe either succeeds or raises `requests.ConnectionError`
(`resolves` tells which): the wordlist lines are trimmed and enqueued
(line 130), the ten workers collectively process every candidate exactly
once, each appending via `scanIteration`, and after `q.join()` the
shared results are returned.  Sequential folding in enqueue order
realises one interleaving; the lock around each append makes the
multiset of appended URLs the same in every interleaving. -/
def scan_subdomains (target : String) (resolves : String → Bool)
    (wordlistLines : List String) : List String :=
  (wordlistLines.map pyStrip).foldl (probeStep (strip_protocol target) resolves) []

/-! ## Work-queue drainage (`queue.Queue`, `q.join()`)

`scan_subdomains` puts every candidate before starting the workers and
then blocks on `q.join()`.  In CPython's `queue.Queue`, `put` increments
`unfinished_tasks`, `task_done` decrements it, and `join` returns when
it reaches zero.  Runs are modelled as event traces: a `dequeue` event
can occur only when the queue holds an item (a blocking `get` completes
only then), and a `taskDone` event only when some dequeued item is still
unacknowledged (each loop iteration of `scan()` calls `task_done` at
most once after its `get`). -/

/-- Queue events of one scan run. -/
inductive QEvent where
  | enqueue
  | dequeue
  | taskDone
  deriving DecidableEq, Repr

/-- Validity of a trace continuing from `e` enqueues, `d` dequeues and
`n` task-done acknowledgements so far. -/
def validFrom : Nat → Nat → Nat → List QEvent → Bool
  | _, _, _, [] => true
  | e, d, n, QEvent.enqueue :: tr => validFrom (e + 1) d n tr
  | e, d, n, QEvent.dequeue :: tr => decide (d < e) && validFrom e (d + 1) n tr
  | e, d, n, QEvent.taskDone :: tr => decide (n < d) && validFrom e d (n + 1) tr

/-- `q.join()` can return after trace `tr` iff `unfinished_tasks` —
enqueues minus acknowledgements — is zero. -/
def joinReturns (tr : List QEvent) : Bool :=
  tr.count QEvent.enqueue == tr.count QEvent.taskDone

/-! ## Helper lemmas -/

theorem isPrefixOf_append_self (a b : List Char) : a.isPrefixOf (a ++ b) = true := by
  induction a with
  | nil => simp
  | cons c cs ih => simp [ih]

theorem mem_setAdd {s : List String} {x y : String} :
    y ∈ setAdd s x ↔ y ∈ s ∨ y = x := by
  by_cases h : x ∈ s
  · simp only [setAdd, if_pos h]
    constructor
    · exact Or.inl
    · rintro (hy | rfl)
      · exact hy
      · exact h
  · simp [setAdd, if_neg h]

theorem foldl_probeStep (host : String) (p : String → Bool) :
    ∀ (l acc : List String),
      l.foldl (probeStep host p) acc =
        acc ++ (l.filter p).map (fun s => buildProbeUrl s host) := by
  intro l
  induction l with
  | nil => intro acc; simp
  | cons s l ih =>
    intro acc
    by_cases h : p s
    · simp [probeStep, scanIteration, h, ih, List.filter_cons]
    · simp [probeStep, scanIteration, h, ih, List.filter_cons]

theorem validFrom_append_replicate (k : Nat) :
    ∀ (e d n : Nat) (rest : List QEvent),
      validFrom e d n (List.replicate k QEvent.enqueue ++ rest) =
        validFrom (e + k) d n rest := by
  induction k with
  | zero => intro e d n rest; simp
  | succ k ih =>
    intro e d n rest
    rw [List.replicate_succ, List.cons_append]
    show validFrom (e + 1) d n (List.replicate k QEvent.enqueue ++ rest) = _
    rw [ih]
    congr 1
    omega

theorem validFrom_count_le :
    ∀ (tr : List QEvent) (e d n : Nat),
      validFrom e d n tr = true → n ≤ d → d ≤ e →
      n + tr.count QEvent.taskDone ≤ d + tr.count QEvent.dequeue ∧
        d + tr.count QEvent.dequeue ≤ e + tr.count QEvent.enqueue := by
  intro tr
  induction tr with
  | nil => intro e d n _ h1 h2; simpa using ⟨h1, h2⟩
  | cons ev tr ih =>
    intro e d n hv h1 h2
    cases ev with
    | enqueue =>
      have hv' : validFrom (e + 1) d n tr = true := hv
      have h := ih (e + 1) d n hv' h1 (Nat.le_succ_of_le h2)
      have ce : (QEvent.enqueue :: tr).count QEvent.enqueue = tr.count QEvent.enqueue + 1 :=
        List.count_cons_self _ _
      have cd : (QEvent.enqueue :: tr).count QEvent.dequeue = tr.count QEvent.dequeue :=
        List.count_cons_of_ne (by decide) _
      have cn : (QEvent.enqueue :: tr).count QEvent.taskDone = tr.count QEvent.taskDone :=
        List.count_cons_of_ne (by decide) _
      rw [ce, cd, cn]
      omega
    | dequeue =>
      have hv' : (decide (d < e) && validFrom e (d + 1) n tr) = true := hv
      rw [Bool.and_eq_true, decide_eq_true_eq] at hv'
      have h := ih e (d + 1) n hv'.2 (Nat.le_succ_of_le h1) hv'.1
      have ce : (QEvent.dequeue :: tr).count QEvent.enqueue = tr.count QEvent.enqueue :=
        List.count_cons_of_ne (by decide) _
      have cd : (QEvent.dequeue :: tr).count QEvent.dequeue = tr.count QEvent.dequeue + 1 :=
        List.count_cons_self _ _
      have cn : (QEvent.dequeue :: tr).count QEvent.taskDone = tr.count QEvent.taskDone :=
        List.count_cons_of_ne (by decide) _
      rw [ce, cd, cn]
      omega
    | taskDone =>
      have hv' : (decide (n < d) && validFrom e d (n + 1) tr) = true := hv
      rw [Bool.and_eq_true, decide_eq_true_eq] at hv'
      have h := ih e d (n + 1) hv'.2 hv'.1 h2
      have ce : (QEvent.taskDone :: tr).count QEvent.enqueue = tr.count QEvent.enqueue :=
        List.count_cons_of_ne (by decide) _
      have cd : (QEvent.taskDone :: tr).count QEvent.dequeue = tr.count QEvent.dequeue :=
        List.count_cons_of_ne (by decide) _
      have cn : (QEvent.taskDone :: tr).count QEvent.taskDone = tr.count QEvent.taskDone + 1 :=
        List.count_cons_self _ _
      rw [ce, cd, cn]
      omega

theorem mem_dirStep_of_mem {target : String} {acc : List String} {u : String}
    (x : Option String) (h : u ∈ acc) : u ∈ dirStep target acc x := by
  cases x with
  | none => exact h
  | some url =>
    by_cases he : url = ""
    · simpa [dirStep, he] using h
    · by_cases hw : pyEndsWith (urlparsePath (urljoin target url)) "/" = true
      · simp only [dirStep, if_neg he, if_pos hw]
        exact mem_setAdd.mpr (Or.inl h)
      · simpa [dirStep, he, hw] using h

theorem mem_foldl_dirStep (target : String) :
    ∀ (hrefs : List (Option String)) (acc : List String) (u : String),
      u ∈ hrefs.foldl (dirStep target) acc ↔
        u ∈ acc ∨ ∃ h, (some h) ∈ hrefs ∧ h ≠ "" ∧
          pyEndsWith (urlparsePath (urljoin target h)) "/" = true ∧ urljoin target h = u := by
  intro hrefs
  induction hrefs with
  | nil => intro acc u; simp
  | cons x hrefs ih =>
    intro acc u
    rw [List.foldl_cons, ih]
    constructor
    · rintro (hx | ⟨h, hmem, hne, hends, heq⟩)
      · cases x with
        | none => exact Or.inl hx
        | some url =>
          by_cases he : url = ""
          · exact Or.inl (by simpa [dirStep, he] using hx)
          · by_cases hw : pyEndsWith (urlparsePath (urljoin target url)) "/" = true
            · have hx' : u ∈ setAdd acc (urljoin target url) := by
                simpa [dirStep, he, hw] using hx
              rcases mem_setAdd.mp hx' with h' | h'
              · exact Or.inl h'
              · exact Or.inr ⟨url, List.mem_cons_self _ _, he, hw, h'.symm⟩
            · exact Or.inl (by simpa [dirStep, he, hw] using hx)
      · exact Or.inr ⟨h, List.mem_cons_of_mem _ hmem, hne, hends, heq⟩
    · rintro (hx | ⟨h, hmem, hne, hends, heq⟩)
      · exact Or.inl (mem_dirStep_of_mem x hx)
      · rcases List.mem_cons.mp hmem with hx' | hmem'
        · subst hx'
          refine Or.inl ?_
          simp only [dirStep, if_neg hne, if_pos hends]
          exact mem_setAdd.mpr (Or.inr heq.symm)
        · exact Or.inr ⟨h, hmem', hne, hends, heq⟩

theorem pyMatch_of_matchesTarget {s : String} (h : matchesTarget s = true) :
    pyMatch s = some s := by
  simp [pyMatch, h]

/-! ## Claim theorems -/

/-- C1: the claim says every pulled candidate is marked done however the
probe ends.  In the source, `q.task_done()` (line 144) is reached after
a successful probe and after a caught `requests.ConnectionError`, but an
exception of any other class escapes `scan()` before `q.task_done()`:
the worker dies, the item is never acknowledged, and — as the last
conjunct shows on a one-item trace — `q.join()` can then never return.
The spec itself (§9, §4.4) calls guaranteed `mark_done` a required fix,
so this is a bug in the code. -/
theorem c1_worker_crash_skips_task_done :
    (scanIteration (buildProbeUrl "www" "example.com") ProbeResult.otherException
        []).taskDoneCalled = false ∧
    (scanIteration (buildProbeUrl "www" "example.com") ProbeResult.otherException
        []).exceptionEscaped = true ∧
    (scanIteration (buildProbeUrl "www" "example.com") ProbeResult.success
        []).taskDoneCalled = true ∧
    (scanIteration (buildProbeUrl "www" "example.com") ProbeResult.connectionError
        []).taskDoneCalled = true ∧
    joinReturns [QEvent.enqueue, QEvent.dequeue] = false :=
  ⟨rfl, rfl, rfl, rfl, rfl⟩

/-- C2: for a wordlist of `N` candidates all enqueued before the workers
start (lines 128-130 precede line 146), and any interleaving of
dequeues and acknowledgements obeying the queue discipline, `q.join()`
(line 151) can return exactly when every one of the `N` candidates has
been dequeued and marked done — `N` dequeue/mark-done pairs — and never
earlier. -/
theorem c2_drainage (N : Nat) (rest : List QEvent)
    (hvalid : validFrom 0 0 0 (List.replicate N QEvent.enqueue ++ rest) = true)
    (hnoenq : rest.count QEvent.enqueue = 0) :
    joinReturns (List.replicate N QEvent.enqueue ++ rest) = true ↔
      rest.count QEvent.dequeue = N ∧ rest.count QEvent.taskDone = N := by
  have hv : validFrom N 0 0 rest = true := by
    have he := validFrom_append_replicate N 0 0 0 rest
    rw [Nat.zero_add] at he
    rw [he] at hvalid
    exact hvalid
  have hcounts := validFrom_count_le rest N 0 0 hv (Nat.le_refl 0) (Nat.zero_le N)
  have hje : (List.replicate N QEvent.enqueue ++ rest).count QEvent.enqueue = N := by
    rw [List.count_append, List.count_replicate_self, hnoenq]
    exact Nat.add_zero N
  have hjt : (List.replicate N QEvent.enqueue ++ rest).count QEvent.taskDone =
      rest.count QEvent.taskDone := by
    rw [List.count_append, List.count_replicate, if_neg (by decide), Nat.zero_add]
  unfold joinReturns
  rw [hje, hjt]
  simp only [beq_iff_eq]
  omega

theorem c2_drainage_witness :
    joinReturns (List.replicate 2 QEvent.enqueue ++
        [QEvent.dequeue, QEvent.taskDone, QEvent.dequeue, QEvent.taskDone]) = true ↔
      ([QEvent.dequeue, QEvent.taskDone, QEvent.dequeue,
          QEvent.taskDone].count QEvent.dequeue = 2 ∧
        [QEvent.dequeue, QEvent.taskDone, QEvent.dequeue,
          QEvent.taskDone].count QEvent.taskDone = 2) :=
  c2_drainage 2 [QEvent.dequeue, QEvent.taskDone, QEvent.dequeue, QEvent.taskDone]
    (by decide) (by decide)

/-- C3: the claim says every probe connection attempt of the subdomain
scan has a bounded timeout.  The source's probe call (line 137) is
`requests.get(url)` with no `timeout` argument — an unbounded wait —
while the directory-scan fetch (line 94) does pass `timeout=5`.  The
spec (§5) requires the bounded timeout precisely so an unreachable host
cannot stall a worker, so this is a bug in the code. -/
theorem c3_probe_timeout_unbounded :
    boundedTimeout (subScanRequest (buildProbeUrl "www" "example.com")) = false ∧
      boundedTimeout (dirScanRequest "http://example.com") = true :=
  ⟨rfl, rfl⟩

/-- C4 counterexample: on the spec's fixture the extractor keeps the
off-origin directory-like link `http://other.example/c/` as well, so the
result is not exactly the singleton the claim states. -/
theorem c4_off_origin_retained :
    extractDirs "http://example.com" [some "/a/", some "/b", some "http://other.example/c/"] =
      ["http://example.com/a/", "http://other.example/c/"] ∧
    "http://other.example/c/" ∈
      extractDirs "http://example.com"
        [some "/a/", some "/b", some "http://other.example/c/"] ∧
    urlOrigin "http://other.example/c/" ≠ urlOrigin "http://example.com" := by
  refine ⟨rfl, by decide, by decide⟩

/-- C4 as amended: a fetched page's link is retained iff its non-empty
`href`, resolved against the target, has a path ending in `/`; no
same-origin condition is applied, so off-origin directory-like links are
also returned. -/
theorem c4_directory_filter (target : String) (hrefs : List (Option String)) (u : String) :
    u ∈ extractDirs target hrefs ↔
      ∃ h, (some h) ∈ hrefs ∧ h ≠ "" ∧
        pyEndsWith (urlparsePath (urljoin target h)) "/" = true ∧ urljoin target h = u := by
  rw [extractDirs, mem_foldl_dirStep]
  simp

/-- C5: each probe worker builds `http://<candidate>.<host>` where the
host is the scheme-stripped target (line 135), appends exactly that URL
on probe success and nothing on connection failure, so the scan's
results are the built URLs of the resolvable candidates; in particular
the wordlist `["www", "mail", "doesnotexist12345"]` with only `www`
resolvable yields exactly `[http://www.<target-host>]`. -/
theorem c5_probe_results (target : String) (resolves : String → Bool)
    (wordlistLines : List String) :
    scan_subdomains target resolves wordlistLines =
      ((wordlistLines.map pyStrip).filter resolves).map
        (fun s => buildProbeUrl s (strip_protocol target)) ∧
    scan_subdomains target (fun s => s == "www") ["www", "mail", "doesnotexist12345"] =
      [buildProbeUrl "www" (strip_protocol target)] := by
  constructor
  · rw [scan_subdomains, foldl_probeStep]
    simp
  · rfl

/-- C6 counterexample: the input `httpx.com` matches the hostname
grammar and is returned unchanged — `target.startswith("http")` is true
for it — so the normalized target carries no explicit scheme, refuting
"always carries an explicit scheme". -/
theorem c6_schemeless_target :
    normalize "httpx.com" = some "httpx.com" ∧
      hasExplicitScheme "httpx.com" = false :=
  ⟨rfl, rfl⟩

/-- C6 as amended: for every input matching the hostname grammar,
normalization returns the input itself when it starts with the literal
`http` (which preserves `http://` and `https://` schemes but leaves
hosts whose first label starts with `http`, such as `httpx.com`,
schemeless), and otherwise prepends `http://`, yielding an explicit
scheme; either way the input's host is kept verbatim. -/
theorem c6_normalization (s : String) (h : matchesTarget s = true) :
    ∃ t, normalize s = some t ∧
      (pyStartsWith s "http" = true → t = s) ∧
      (pyStartsWith s "http" = false →
        t = "http://" ++ s ∧ hasExplicitScheme t = true) := by
  refine ⟨if pyStartsWith s "http" then s else "http://" ++ s,
    by simp [normalize, pyMatch_of_matchesTarget h], ?_, ?_⟩
  · intro hs
    simp [hs]
  · intro hs
    rw [if_neg (by simp [hs])]
    refine ⟨rfl, ?_⟩
    have hd : ("http://" ++ s).data = "http://".data ++ s.data := String.data_append _ _
    simp [hasExplicitScheme, hd, isPrefixOf_append_self]

theorem c6_normalization_witness :
    matchesTarget "example.com" = true ∧
      ∃ t, normalize "example.com" = some t ∧
        (pyStartsWith "example.com" "http" = true → t = "example.com") ∧
        (pyStartsWith "example.com" "http" = false →
          t = "http://" ++ "example.com" ∧ hasExplicitScheme t = true) :=
  ⟨by decide, c6_normalization "example.com" (by decide)⟩

/-- C7 counterexample: the input `example.com` followed by a newline
does not match the hostname grammar, yet Python's `$` matches just
before the trailing newline, so `main` accepts it — `group(0)` is
`example.com` — prints no validation diagnostic, and runs the selected
scan mode against `http://example.com`. -/
theorem c7_scan_despite_invalid_grammar :
    matchesTarget "example.com\n" = false ∧
      mainRun "example.com\n" ⟨false, false, false, true, false⟩ =
        MainOutcome.ran Mode.subScan "http://example.com" ∧
      mainDiagnostic (mainRun "example.com\n" ⟨false, false, false, true, false⟩) = none :=
  ⟨rfl, rfl, rfl⟩

/-- C7 as amended: a target string rejected by the source's regex match
— neither the string itself nor, when it ends in a newline, the string
without that final newline matches the hostname grammar (such as
`not a domain` or `http://`) — makes `main` print a diagnostic and
return before any scan mode is dispatched. -/
theorem c7_invalid_target_no_scan (t : String) (a : Args)
    (h : pyMatch t = none) :
    ranMode (mainRun t a) = none ∧ (mainDiagnostic (mainRun t a)).isSome = true := by
  by_cases ht : t = ""
  · subst ht
    exact ⟨rfl, rfl⟩
  · have hn : normalize t = none := by simp [normalize, h]
    simp [mainRun, ht, hn, ranMode, mainDiagnostic]

theorem c7_invalid_target_witness :
    (ranMode (mainRun "not a domain" ⟨true, true, true, true, true⟩) = none ∧
      (mainDiagnostic (mainRun "not a domain" ⟨true, true, true, true, true⟩)).isSome = true) ∧
    (ranMode (mainRun "http://" ⟨false, false, true, true, false⟩) = none ∧
      (mainDiagnostic (mainRun "http://" ⟨false, false, true, true, false⟩)).isSome = true) :=
  ⟨c7_invalid_target_no_scan "not a domain" ⟨true, true, true, true, true⟩ (by decide),
    c7_invalid_target_no_scan "http://" ⟨false, false, true, true, false⟩ (by decide)⟩

/-- C8: when the single page fetch of `scan_directories` raises a
transport error, the `except` branch (lines 96-98) prints one diagnostic
and returns the (initially empty) results normally: a fresh scanner
yields `Except.ok` with an empty result list and a logged message — no
exception reaches the caller. -/
theorem c8_fail_soft (target e : String) :
    scan_directoriesE [] target (FetchOutcome.transportError e) =
      Except.ok ([], ["[!] Error accessing " ++ target ++ ": " ++ e]) :=
  rfl

/-- C9: `scan_directories` only ever appends to the shared
`self.results` and returns it, so on one scanner instance every element
returned by a first call is still in the sequence returned by a second
call. -/
theorem c9_results_accumulate (target : String) (f1 f2 : FetchOutcome) (x : String)
    (hx : x ∈ (scan_directories [] target f1).1) :
    x ∈ (scan_directories (scan_directories [] target f1).1 target f2).1 := by
  cases f2 with
  | transportError e => exact hx
  | ok hrefs => exact List.mem_append_left _ hx

theorem c9_results_accumulate_witness :
    "http://example.com/a/" ∈
      (scan_directories
        (scan_directories [] "http://example.com" (FetchOutcome.ok [some "/a/"])).1
        "http://example.com" (FetchOutcome.ok [])).1 :=
  c9_results_accumulate "http://example.com" (FetchOutcome.ok [some "/a/"])
    (FetchOutcome.ok []) "http://example.com/a/" (by decide)

/-- C10: the `if`/`elif` chain of `main` runs the first set flag in the
fixed order basic-info, port-scan, dir-scan, sub-scan, tech-scan —
never more than one mode — and with no flag set runs none. -/
theorem c10_mode_priority (a : Args) :
    selectMode a = (((modeFlags a).filter (fun pm => pm.1)).head?).map Prod.snd := by
  obtain ⟨b1, b2, b3, b4, b5⟩ := a
  cases b1 <;> cases b2 <;> cases b3 <;> cases b4 <;> cases b5 <;> rfl

end Mira
